import Mathlib

/-!
Verification development for the LysioDB / RikardDB survey-analytics
tabulation engine.

The definitions below are a shallow embedding of the aggregation code in
`RikardDB/calculations.py` (percentage tabulation, ranking metrics, index
scoring, correlation), `LysioDB/identify.py` (question classification and
label splitting) and `LysioDB/category.py` (category-column synthesis).

Conventions of the embedding:
* Float64 columns are modelled over `ℚ`; where the code can produce IEEE
  non-finite results (division by a zero denominator) we use an explicit
  value domain `FV` with `nan` / `inf` / `ninf` constructors, because the
  distinction between a filled and an unfilled NaN is exactly what some of
  the checked properties are about.
* A polars null is `Option.none`.  Polars `is_in` returns null on null
  input and boolean sums skip nulls, so null cells never count towards
  `is_in`-based counters; the counting functions below encode that.
* A category column produced by the category builder holds 1 for members
  and null otherwise; a row's membership is modelled as a `Bool` field.
* Dynamic `eval` of expression strings and the regex engine are external
  libraries; they are modelled as explicit oracle parameters (an
  `Option`-valued evaluator, boolean pattern matches), while every regex
  that the label-splitting code relies on is translated character by
  character.
-/

/-! ### A small model of IEEE Float64 results of a single division

`Calculations.percentages` divides Float64 aggregates.  Polars float
division follows IEEE-754: `x / 0.0` is `NaN` when `x = 0`, `±inf`
otherwise, and no fault is raised.  `fill_null` does not touch `NaN`;
only `fill_nan` does. -/

inductive FV where
  | num (q : ℚ)
  | nan
  | inf
  | ninf
deriving DecidableEq, Repr

/-- IEEE division of two finite Float64 values, as polars performs it. -/
def qdiv (a b : ℚ) : FV :=
  if b ≠ 0 then FV.num (a / b)
  else if 0 < a then FV.inf
  else if a < 0 then FV.ninf
  else FV.nan

/-- `Expr.fill_nan(0)`: replaces a NaN result by 0, leaves the rest alone. -/
def fillNaN0 : FV → FV
  | FV.nan => FV.num 0
  | v => v

/-! ### Percentage tabulation (`Calculations.percentages`)

One question column crossed with one category column.  `PRow.val` is the
question cell, `PRow.cat` is membership in the category column being
aggregated (the code groups by the category column and keeps the non-null
group), `PRow.wt` is the weight cell. -/

structure PRow where
  val : Option ℚ
  cat : Bool
  wt : ℚ
deriving DecidableEq, Repr

/-- The rows of the non-null category group (`group_by(category).filter(is_not_null)`). -/
def memberRows (df : List PRow) : List PRow :=
  df.filter (·.cat)

/-- `(pl.col(col) == value).sum()` — null cells compare to null and are skipped. -/
def countVal (df : List PRow) (v : ℚ) : ℕ :=
  ((memberRows df).filter (fun r => r.val = some v)).length

/-- `pl.when(col == value).then(weight).sum()` — weight sum over rows equal to `value`. -/
def weightedSumVal (df : List PRow) (v : ℚ) : ℚ :=
  (((memberRows df).filter (fun r => r.val = some v)).map (·.wt)).sum

/-- `col.is_in(nan_values).sum()` — null cells yield null under `is_in` and are skipped. -/
def nanCount (df : List PRow) (nans : List ℚ) : ℕ :=
  ((memberRows df).filter (fun r => r.val.any fun u => decide (u ∈ nans))).length

/-- `pl.when(col.is_in(nan_values)).then(weight).sum()`. -/
def nanWeightedSum (df : List PRow) (nans : List ℚ) : ℚ :=
  (((memberRows df).filter (fun r => r.val.any fun u => decide (u ∈ nans))).map (·.wt)).sum

/-- `col.filter(~col.is_in(nan_values)).count()` — the valid (non-missing,
non-null) denominator: null cells are dropped by the null-propagating
filter and `count` only counts non-null cells anyway. -/
def totalCount (df : List PRow) (nans : List ℚ) : ℕ :=
  ((memberRows df).filter (fun r => r.val.any fun u => decide (u ∉ nans))).length

/-- Unweighted percentage for one answer value:
`(count / total_count).fill_null(0).fill_nan(0)` (calculations.py:343-352).
The numerator and denominator of the division are never null, so
`fill_null` is the identity here and is omitted. -/
def percentageU (df : List PRow) (nans : List ℚ) (v : ℚ) : FV :=
  fillNaN0 (qdiv (countVal df v) (totalCount df nans))

/-- Weighted percentage for one answer value:
`(weighted_sum / total_count).fill_null(0)` (calculations.py:329-337).
Note: the source applies no `fill_nan` on this branch. -/
def percentageW (df : List PRow) (nans : List ℚ) (v : ℚ) : FV :=
  qdiv (weightedSumVal df v) (totalCount df nans)

/-- Unweighted missing-bucket percentage:
`(nan_count / (total_count + nan_count)).fill_null(0).fill_nan(0)`
(calculations.py:388-400). -/
def nanPercentageU (df : List PRow) (nans : List ℚ) : FV :=
  fillNaN0 (qdiv (nanCount df nans) (totalCount df nans + nanCount df nans))

/-- Weighted missing-bucket percentage:
`(nan_weighted_sum / (total_count + nan_weighted_sum)).fill_null(0).fill_nan(0)`
(calculations.py:370-382). -/
def nanPercentageW (df : List PRow) (nans : List ℚ) : FV :=
  fillNaN0 (qdiv (nanWeightedSum df nans) (totalCount df nans + nanWeightedSum df nans))

/-! Auxiliary lemmas about the counting functions. -/

theorem filter_length_mono {α : Type} (l : List α) (p q : α → Bool)
    (h : ∀ x ∈ l, p x = true → q x = true) :
    (l.filter p).length ≤ (l.filter q).length := by
  induction l with
  | nil => simp
  | cons a t ih =>
    have ht : ∀ x ∈ t, p x = true → q x = true := fun x hx => h x (List.mem_cons_of_mem a hx)
    by_cases hp : p a = true
    · have hq : q a = true := h a (List.mem_cons_self a t) hp
      simp [List.filter_cons, hp, hq, Nat.succ_le_succ (ih ht)]
    · simp only [List.filter_cons, hp]
      by_cases hq : q a = true
      · simp only [hq, if_true, List.length_cons]
        exact Nat.le_succ_of_le (ih ht)
      · simp only [hq, if_false]
        exact ih ht

theorem countVal_le_totalCount (df : List PRow) (nans : List ℚ) (v : ℚ) (hv : v ∉ nans) :
    countVal df v ≤ totalCount df nans := by
  apply filter_length_mono
  intro r _ hp
  rcases hval : r.val with _ | u
  · simp [hval] at hp
  · simp only [hval, Option.any_some, decide_eq_true_eq]
    simp only [hval, decide_eq_true_eq, Option.some.injEq] at hp
    subst hp
    exact hv

theorem countVal_eq_zero_of_total_zero (df : List PRow) (nans : List ℚ) (v : ℚ)
    (hv : v ∉ nans) (h0 : totalCount df nans = 0) : countVal df v = 0 :=
  Nat.le_zero.mp (h0 ▸ countVal_le_totalCount df nans v hv)

theorem weightedSumVal_eq_zero_of_total_zero (df : List PRow) (nans : List ℚ) (v : ℚ)
    (hv : v ∉ nans) (h0 : totalCount df nans = 0) : weightedSumVal df v = 0 := by
  have hc := countVal_eq_zero_of_total_zero df nans v hv h0
  unfold countVal at hc
  unfold weightedSumVal
  rw [List.length_eq_zero] at hc
  rw [hc]
  simp

theorem sum_count_filter (ms : List PRow) (nans : List ℚ) (pvs : Finset ℚ)
    (hn : ∀ v ∈ pvs, v ∉ nans)
    (hcov : ∀ r ∈ ms, r.val.all (fun u => decide (u ∈ nans) || decide (u ∈ pvs)) = true) :
    ∑ v ∈ pvs, (ms.filter (fun r => r.val = some v)).length
      = (ms.filter (fun r => r.val.any fun u => decide (u ∉ nans))).length := by
  induction ms with
  | nil => simp
  | cons a t ih =>
    have hcovt : ∀ r ∈ t, r.val.all (fun u => decide (u ∈ nans) || decide (u ∈ pvs)) = true :=
      fun r hr => hcov r (List.mem_cons_of_mem a hr)
    have key : ∀ p : PRow → Bool,
        ((a :: t).filter p).length = (if p a = true then 1 else 0) + (t.filter p).length := by
      intro p
      by_cases hpa : p a = true <;>
        simp [List.filter_cons, hpa, Nat.succ_eq_add_one, Nat.add_comm]
    have lhs_eq : ∑ v ∈ pvs, ((a :: t).filter (fun r => r.val = some v)).length
        = (∑ v ∈ pvs, if a.val = some v then 1 else 0)
          + ∑ v ∈ pvs, (t.filter (fun r => r.val = some v)).length := by
      rw [← Finset.sum_add_distrib]
      refine Finset.sum_congr rfl fun v _ => ?_
      rw [key]
      congr 1
      simp
    rw [lhs_eq, key, ih hcovt]
    congr 1
    rcases hval : a.val with _ | u
    · simp [hval]
    · by_cases hu : u ∈ nans
      · rw [Finset.sum_eq_zero]
        · simp [hu]
        · intro v hv
          rw [if_neg]
          intro h
          rw [Option.some.injEq] at h
          exact hn v hv (h ▸ hu)
      · have hmem : u ∈ pvs := by
          have := hcov a (List.mem_cons_self a t)
          rw [hval] at this
          simp only [Option.all_some, Bool.or_eq_true, decide_eq_true_eq] at this
          exact this.resolve_left hu
        simp only [Option.some.injEq]
        rw [Finset.sum_ite_eq pvs u (fun _ => 1), if_pos hmem]
        simp [hu]

theorem sum_countVal_eq_totalCount (df : List PRow) (nans : List ℚ) (pvs : Finset ℚ)
    (hn : ∀ v ∈ pvs, v ∉ nans)
    (hcov : ∀ r ∈ memberRows df,
      r.val.all (fun u => decide (u ∈ nans) || decide (u ∈ pvs)) = true) :
    ∑ v ∈ pvs, countVal df v = totalCount df nans :=
  sum_count_filter (memberRows df) nans pvs hn hcov

/-! ### Index scoring (`Calculations.index`, calculations.py:873-1250)

The index pre-pass flags and replaces configured missing-value codes, but
only on columns that have value labels containing such a code
(calculations.py:892-915); `IRow.vals` holds the raw values of the
area-map questions for one respondent, `hasNan q` says whether question
`q` got a `_was_nan_value_code` flag column (and the replacement).
`nanMap` is the `NAN_VALUES` dict (code, replacement) — by default
`{999: None}`. -/

structure IRow where
  cat : Bool
  vals : List (Option ℚ)
  wt : ℚ

/-- `pl.col(col).replace(nan_values_config)` on a flagged column: a cell
equal to a code becomes the configured replacement, everything else —
including null — is unchanged; unflagged columns are left alone. -/
def lookupCode (u : ℚ) : List (ℚ × Option ℚ) → Option (Option ℚ)
  | [] => none
  | (k, r) :: t => if k = u then some r else lookupCode u t

def replaceVal (apply : Bool) (nanMap : List (ℚ × Option ℚ)) : Option ℚ → Option ℚ
  | none => none
  | some u =>
      if apply then
        match lookupCode u nanMap with
        | some r => r
        | none => some u
      else some u

/-- Rows of the category (`df.filter(pl.col(category) == 1)`). -/
def catRows (rows : List IRow) : List IRow :=
  rows.filter (·.cat)

/-- The non-null post-replacement values of question `q` inside the
category — the melted `Value` column after `drop_nulls`. -/
def validVals (rows : List IRow) (hasNan : List Bool) (nanMap : List (ℚ × Option ℚ))
    (q : ℕ) : List ℚ :=
  (catRows rows).filterMap
    (fun r => replaceVal (hasNan.getD q false) nanMap (r.vals.getD q none))

/-- `Nan_Count` for question `q`: the `_was_nan_value_code` flag column is
built from the raw values, summed inside the category (null cells give a
null flag and are skipped by the boolean sum). -/
def nanCountI (rows : List IRow) (nanMap : List (ℚ × Option ℚ)) (q : ℕ) : ℕ :=
  ((catRows rows).filter
    (fun r => (r.vals.getD q none).any fun u => decide (u ∈ nanMap.map Prod.fst))).length

/-- `Individual_Index` for question `q` in one category
(calculations.py:1126-1146): `none` when the question contributes no
non-null value (the group is absent from the aggregation), `some none`
when the emitted value is null, `some (some m)` with `m` the plain
`pl.mean` otherwise.  The suppression is
`when((Count_Individual + Nan_Count) < MINIMUM_COUNT).then(None).otherwise(mean)`;
for a question without a `_was_nan_value_code` flag column the joined
`Nan_Count` is null, so the predicate is null, and polars'
`when/then/otherwise` propagates a null predicate to a *null* output
(Kleene semantics — neither branch is taken), so every unflagged
question's `Individual_Index` is null whatever the sample size.  With a
flag column the index is null iff `valid + nan < MINIMUM_COUNT`.  The
supplied weight column is not part of the melted frame, so the mean is
always unweighted. -/
def individualIndex (rows : List IRow) (hasNan : List Bool)
    (nanMap : List (ℚ × Option ℚ)) (minCount : ℕ) (q : ℕ) : Option (Option ℚ) :=
  let vv := validVals rows hasNan nanMap q
  if vv.isEmpty then none
  else
    some (if hasNan.getD q false then
      (if vv.length + nanCountI rows nanMap q < minCount then none
       else some (vv.sum / vv.length))
      else none)

/-- Modelled from the spec for comparison: the *weighted* mean of the
question's non-null post-replacement values within the category, which the
claim says `Individual_Index` equals when a weight column is supplied. -/
def specWeightedIndividualIndex (rows : List IRow) (hasNan : List Bool)
    (nanMap : List (ℚ × Option ℚ)) (q : ℕ) : ℚ :=
  let pairs := (catRows rows).filterMap
    (fun r => (replaceVal (hasNan.getD q false) nanMap (r.vals.getD q none)).map
      (fun u => (u, r.wt)))
  (pairs.map (fun p => p.1 * p.2)).sum / (pairs.map (fun p => p.2)).sum

/-- Weighted rows: two respondents with weights 1 and 3 and values 0 and 1. -/
def idxRowsW : List IRow :=
  [⟨true, [some 0], 1⟩, ⟨true, [some 1], 3⟩]

/-- A single respondent on a question without nan-coded value labels. -/
def idxRowsSmall : List IRow := [⟨true, [some 1], 1⟩]

/-- Default `NAN_VALUES` of the config: `{999: None}`. -/
def idxNanMap : List (ℚ × Option ℚ) := [(999, none)]

/-- C3 counterexample: (a) with weights 1 and 3 on values 0 and 1 the code
returns the unweighted mean 1/2 even though the weighted mean demanded by
the claim is 3/4 — the weight column never enters the individual-index
aggregation; (b) a question without nan-coded value labels has no
`Nan_Count` flag column, the null suppression predicate propagates
through `when/then/otherwise` to a null output, and the emitted
`Individual_Index` is null even though
`valid_count + nan_count = 1` is not below a `MINIMUM_COUNT` of 1. -/
theorem index_individual_mean_cex :
    individualIndex idxRowsW [true] idxNanMap 2 0 = some (some (1/2)) ∧
    specWeightedIndividualIndex idxRowsW [true] idxNanMap 0 = 3/4 ∧
    ((1 : ℚ)/2 ≠ 3/4) ∧
    individualIndex idxRowsSmall [false] idxNanMap 1 0 = some none ∧
    ¬((validVals idxRowsSmall [false] idxNanMap 0).length
      + nanCountI idxRowsSmall idxNanMap 0 < 1) := by
  refine ⟨?_, ?_, by norm_num, ?_, by decide⟩
  · simp +decide [individualIndex, validVals, nanCountI, catRows, replaceVal,
      idxRowsW, idxNanMap, lookupCode, List.filterMap_cons]
  · simp +decide [specWeightedIndividualIndex, catRows, replaceVal, idxRowsW, idxNanMap,
      lookupCode, List.filterMap_cons]
    norm_num
  · simp +decide [individualIndex, validVals, nanCountI, catRows, replaceVal,
      idxRowsSmall, idxNanMap, lookupCode, List.filterMap_cons]

/-- C3 (amended): for a question with at least one non-null value in the
category, the emitted `Individual_Index` is null exactly when the
question carries no nan flag column (the null suppression predicate
propagates to a null result) or `valid_count + nan_count <
MINIMUM_COUNT`; when it has a flag column and the count reaches the
threshold it equals the *unweighted* mean of the non-null
post-replacement values — any supplied weight column is ignored by the
individual-index aggregation. -/
theorem index_individual_mean (rows : List IRow) (hasNan : List Bool)
    (nanMap : List (ℚ × Option ℚ)) (minCount : ℕ) (q : ℕ)
    (h : validVals rows hasNan nanMap q ≠ []) :
    (individualIndex rows hasNan nanMap minCount q = some none ↔
      (hasNan.getD q false = false ∨
        (validVals rows hasNan nanMap q).length + nanCountI rows nanMap q < minCount)) ∧
    ((hasNan.getD q false = true ∧
        ¬((validVals rows hasNan nanMap q).length + nanCountI rows nanMap q < minCount)) →
      individualIndex rows hasNan nanMap minCount q
        = some (some ((validVals rows hasNan nanMap q).sum
            / (validVals rows hasNan nanMap q).length))) := by
  have hne : (validVals rows hasNan nanMap q).isEmpty = false := by
    rcases hv : validVals rows hasNan nanMap q with _ | ⟨a, t⟩
    · exact absurd hv h
    · rfl
  unfold individualIndex
  simp only [hne, Bool.false_eq_true, if_false]
  cases hb : hasNan.getD q false with
  | false =>
    simp [hb]
  | true =>
    by_cases hlt : (validVals rows hasNan nanMap q).length
        + nanCountI rows nanMap q < minCount
    · simp [hb, hlt]
    · simp [hb, hlt]

/-- Witness for `index_individual_mean` at the two-respondent input. -/
theorem index_individual_mean_witness :
    (validVals idxRowsW [true] idxNanMap 0 ≠ []) ∧
    ((individualIndex idxRowsW [true] idxNanMap 2 0 = some none ↔
      ((([true] : List Bool).getD 0 false = false ∨
        (validVals idxRowsW [true] idxNanMap 0).length + nanCountI idxRowsW idxNanMap 0 < 2))) ∧
    ((([true] : List Bool).getD 0 false = true ∧
        ¬((validVals idxRowsW [true] idxNanMap 0).length + nanCountI idxRowsW idxNanMap 0 < 2)) →
      individualIndex idxRowsW [true] idxNanMap 2 0
        = some (some ((validVals idxRowsW [true] idxNanMap 0).sum
            / (validVals idxRowsW [true] idxNanMap 0).length)))) :=
  ⟨by decide, index_individual_mean idxRowsW [true] idxNanMap 2 0 (by decide)⟩

/-! ### Ranking metrics (`Calculations._calculate_ranking_metrics`,
calculations.py:588-871)

`RResp.vals` holds one respondent's cells of the K ranking columns (cast
to strings, as the source casts `ranked_item_value` to Utf8); `rankNums`
holds the rank number sliced from each column name (null when the suffix
does not parse).  The melt produces one observation per (respondent,
rank column); observations are then filtered: rank non-null and positive,
value non-null (a null value is dropped by the null-propagating
`is_in` filter), value not a missing code, value among the declared
possible values.  Only aggregates (counts, sums) are consumed, so the
melt order is irrelevant. -/

structure RResp where
  cat : Bool
  wt : ℚ
  vals : List (Option String)

/-- The filtered melted observations `(rank, item, weight)` of one category. -/
def rankObs (rankNums : List (Option ℤ)) (nans possible : List String)
    (rows : List RResp) : List (ℤ × String × ℚ) :=
  (rows.filter (·.cat)).flatMap (fun r =>
    (rankNums.zip r.vals).filterMap (fun p =>
      match p.1, p.2 with
      | some k, some s =>
          if 0 < k ∧ s ∉ nans ∧ s ∈ possible then some (k, s, r.wt) else none
      | _, _ => none))

/-- `(pl.col("rank") == rank_value).sum()` inside the per-item group. -/
def rankCount (obs : List (ℤ × String × ℚ)) (item : String) (k : ℤ) : ℕ :=
  (obs.filter (fun o => o.2.1 = item ∧ o.1 = k)).length

/-- `pl.when(rank == rank_value).then(weight).sum()` inside the per-item group. -/
def rankWSum (obs : List (ℤ × String × ℚ)) (item : String) (k : ℤ) : ℚ :=
  ((obs.filter (fun o => o.2.1 = item ∧ o.1 = k)).map (fun o => o.2.2)).sum

/-- Unweighted `total_score`: the sum of the reciprocal `rank_score`
column `1.0 / rank` over the item's observations. -/
def totalScoreU (obs : List (ℤ × String × ℚ)) (item : String) : ℚ :=
  ((obs.filter (fun o => o.2.1 = item)).map (fun o => 1 / (o.1 : ℚ))).sum

/-- Weighted `total_score`: sum of `rank_score * weight`. -/
def totalScoreW (obs : List (ℤ × String × ℚ)) (item : String) : ℚ :=
  ((obs.filter (fun o => o.2.1 = item)).map (fun o => 1 / (o.1 : ℚ) * o.2.2)).sum

/-- `total_respondents_count`, unweighted: the category's row count,
taken on the category-filtered frame before the melt and before any
rank/value filtering (calculations.py:659-664). -/
def totalRespU (rows : List RResp) : ℚ :=
  ((rows.filter (·.cat)).length : ℚ)

/-- `total_respondents_count`, weighted: the category's weight sum, also
taken before any rank-specific filtering. -/
def totalRespW (rows : List RResp) : ℚ :=
  ((rows.filter (·.cat)).map (·.wt)).sum

/-- Per-item per-rank percentage (calculations.py:759-800): count (or
weighted sum) over the total-respondent denominator when that denominator
is positive, literal 0 otherwise. -/
def rankPercentage (useW : Bool) (rows : List RResp) (rankNums : List (Option ℤ))
    (nans possible : List String) (item : String) (k : ℤ) : ℚ :=
  let total := if useW then totalRespW rows else totalRespU rows
  if 0 < total then
    (if useW then rankWSum (rankObs rankNums nans possible rows) item k
     else (rankCount (rankObs rankNums nans possible rows) item k : ℚ)) / total
  else 0

/-- The scenario: 3 rank columns, 2 respondents ranking `[A,B,C]` and `[B,A,C]`. -/
def scenRankNums : List (Option ℤ) := [some 1, some 2, some 3]

def scenRows : List RResp :=
  [⟨true, 1, [some "A", some "B", some "C"]⟩,
   ⟨true, 1, [some "B", some "A", some "C"]⟩]

def scenPossible : List String := ["A", "B", "C"]

/-- C5: every per-item per-rank percentage divides by the category's total
respondent count — row count unweighted, weight sum weighted — computed on
the category-filtered frame before any rank-specific filtering; each
observation contributes `1/rank` to its item's reciprocal total score; and
on the `[A,B,C]` / `[B,A,C]` scenario item A gets rank-1 count 1 (50%),
rank-2 count 1 (50%) and total score 1.5. -/
theorem ranking_metrics (rows : List RResp) (rankNums : List (Option ℤ))
    (nans possible : List String) (item : String) (k : ℤ) (o : ℤ × String × ℚ)
    (obs : List (ℤ × String × ℚ)) :
    (0 < totalRespU rows →
      rankPercentage false rows rankNums nans possible item k
        = rankCount (rankObs rankNums nans possible rows) item k
            / ((rows.filter (·.cat)).length : ℚ)) ∧
    (0 < totalRespW rows →
      rankPercentage true rows rankNums nans possible item k
        = rankWSum (rankObs rankNums nans possible rows) item k
            / ((rows.filter (·.cat)).map (·.wt)).sum) ∧
    (totalScoreU (o :: obs) item
      = (if o.2.1 = item then 1 / (o.1 : ℚ) else 0) + totalScoreU obs item) ∧
    (rankCount (rankObs scenRankNums [] scenPossible scenRows) "A" 1 = 1 ∧
     rankCount (rankObs scenRankNums [] scenPossible scenRows) "A" 2 = 1 ∧
     rankPercentage false scenRows scenRankNums [] scenPossible "A" 1 = 1/2 ∧
     rankPercentage false scenRows scenRankNums [] scenPossible "A" 2 = 1/2 ∧
     totalScoreU (rankObs scenRankNums [] scenPossible scenRows) "A" = 3/2 ∧
     totalRespU scenRows = 2) := by
  refine ⟨?_, ?_, ?_, ?_⟩
  · intro h
    unfold rankPercentage
    simp only [if_false, Bool.false_eq_true]
    rw [if_pos h]
    rfl
  · intro h
    unfold rankPercentage
    simp only [if_true]
    rw [if_pos h]
    rfl
  · unfold totalScoreU
    by_cases ho : o.2.1 = item <;> simp [List.filter_cons, ho]
  · refine ⟨?_, ?_, ?_, ?_, ?_, ?_⟩
    all_goals
      simp +decide [rankCount, rankPercentage, rankObs, totalScoreU, totalRespU,
        scenRows, scenRankNums, scenPossible, List.filterMap_cons]
    all_goals norm_num

/-- Witness for `ranking_metrics` at the scenario input. -/
theorem ranking_metrics_witness :
    (0 < totalRespU scenRows) ∧
    rankPercentage false scenRows scenRankNums [] scenPossible "A" 1
      = rankCount (rankObs scenRankNums [] scenPossible scenRows) "A" 1
          / ((scenRows.filter (·.cat)).length : ℚ) := by
  have hpos : 0 < totalRespU scenRows := by
    simp +decide [totalRespU, scenRows]
  exact ⟨hpos,
    (ranking_metrics scenRows scenRankNums [] scenPossible "A" 1 (1, "A", 1) []).1 hpos⟩

/-! ### Question-type classification (`Identify.identify_questions`,
LysioDB/identify.py:59-85)

The regex engine behind `str.contains` is external; for one column the
four pattern tests are four booleans `m, r, g, s` (multi_response,
ranking, grid, single_choice).  The source iterates
`reversed(patterns_map.items())` — i.e. single_choice, grid, ranking,
multi_response — each step wrapping the accumulated expression in
`when(condition).then(category).otherwise(previous)`, starting from the
literal `numeric_other`; evaluating the final nested expression on one
row is the fold below.  String-typed columns bypass the pattern chain and
become `open_text`. -/

def patternFold (pats : List (String × Bool)) : String :=
  pats.foldl (fun acc cb => if cb.2 then cb.1 else acc) "numeric_other"

/-- The classifier for one eligible column: `isNumeric` is the readstat
dtype test, `m r g s` are the four pattern matches in `patterns_map`
order. -/
def identifyType (isNumeric m r g s : Bool) : String :=
  let patterns : List (String × Bool) :=
    [("multi_response", m), ("ranking", r), ("grid", g), ("single_choice", s)]
  if isNumeric then patternFold patterns.reverse else "open_text"

/-- C6: a numeric column is assigned the first matching type in the fixed
priority order multi_response > ranking > grid > single_choice — in
particular a column matching the multi_response pattern is classified
multi_response whatever the other three tests say — with default
`numeric_other` when nothing matches, and a string column is always
`open_text`. -/
theorem identify_priority (m r g s : Bool) :
    (identifyType true m r g s
      = if m then "multi_response"
        else if r then "ranking"
        else if g then "grid"
        else if s then "single_choice"
        else "numeric_other") ∧
    (identifyType true true r g s = "multi_response") ∧
    (identifyType true false false false false = "numeric_other") ∧
    (identifyType false m r g s = "open_text") := by
  cases m <;> cases r <;> cases g <;> cases s <;>
    simp [identifyType, patternFold]

/-! ### Display-label splitting (`Identify.identify_questions`,
LysioDB/identify.py:162-211)

Labels are lists of characters.  The three split regexes are translated
directly; all use a greedy leading `(.*)` group, so each one splits at
the *last* position where its separator can start. -/

/-- Does `pat` occur in `s` starting at index `i`? -/
def matchAt (pat s : List Char) (i : ℕ) : Bool :=
  decide ((s.drop i).take pat.length = pat)

/-- The greedy-match start: the largest `i` with `pat` at `i`, if any. -/
def lastMatch (pat s : List Char) : Option ℕ :=
  (List.range (s.length + 1)).reverse.find? (fun i => matchAt pat s i)

/-- `^(.*)( \d{1,2} = )(.*)$`: can the numbered-option separator start at
index `i` of `s`, and with which length (6 for two digits, 5 for one —
the inner `\d{1,2}` is greedy)? -/
def multiSepAt (s : List Char) (i : ℕ) : Option ℕ :=
  if (s.getD i ' ' = ' ' ∧ (s.getD (i+1) ' ').isDigit = true ∧
      (s.getD (i+2) ' ').isDigit = true ∧ s.getD (i+3) 'x' = ' ' ∧
      s.getD (i+4) 'x' = '=' ∧ s.getD (i+5) 'x' = ' ' ∧ i + 6 ≤ s.length) then
    some 6
  else if (s.getD i 'x' = ' ' ∧ (s.getD (i+1) ' ').isDigit = true ∧
      s.getD (i+2) 'x' = ' ' ∧ s.getD (i+3) 'x' = '=' ∧ s.getD (i+4) 'x' = ' ' ∧
      i + 5 ≤ s.length) then
    some 5
  else none

/-- Greedy match of the numbered-option regex: the last start index,
paired with the separator length there. -/
def multiLast (s : List Char) : Option (ℕ × ℕ) :=
  ((List.range (s.length + 1)).reverse.filterMap
    (fun i => (multiSepAt s i).map (fun l => (i, l)))).head?

/-- The `" - "` separator of the grid-label regex `^(.*)( - )(.*)$`. -/
def gridSep : List Char := [' ', '-', ' ']

/-- `question_type in ["grid", "multi_response"]` — the gate on *both*
embedded-separator branches (identify.py:163-165). -/
def applySplit (qt : String) : Bool :=
  qt = "grid" ∨ qt = "multi_response"

/-- `(base_question_label, question_label)` for one column
(identify.py:182-204): first the leading-bracket convention (label starts
with `[` and the `^(.*)(])(.*)$` regex matches, i.e. the label contains
`]`); then, for grid and multi_response types only, the numbered-option
regex; then, for the same types, the `" - "` regex; otherwise the whole
label is used for both fields.  `strip_prefix("[")` only strips a present
prefix. -/
def labelSplit (qt : String) (s : List Char) : List Char × List Char :=
  if s.head? = some '[' ∧ (lastMatch [']'] s).isSome then
    match lastMatch [']'] s with
    | some i =>
        (s.drop (i+1),
         if (s.take i).head? = some '[' then (s.take i).drop 1 else s.take i)
    | none => (s, s)
  else if applySplit qt ∧ (multiLast s).isSome then
    match multiLast s with
    | some (i, l) => (s.take i, s.drop (i + l))
    | none => (s, s)
  else if applySplit qt ∧ (lastMatch gridSep s).isSome then
    match lastMatch gridSep s with
    | some i => (s.take i, s.drop (i + 3))
    | none => (s, s)
  else (s, s)

/-- C7 counterexample: the multi_response-typed label `"Base - Item"`
contains `" - "`, matches neither the bracket nor the numbered-option
convention, and *is* split — base label `"Base"`, question label
`"Item"` — rather than kept whole for both fields. -/
theorem label_split_multi_cex :
    labelSplit "multi_response" "Base - Item".data = ("Base".data, "Item".data) ∧
    "Base".data ≠ "Base - Item".data := by
  constructor
  · decide
  · decide

/-- C7 (amended): the `" - "` split convention is gated on the question
type being grid *or* multi_response: whenever a multi_response question's
display label fails the leading-bracket and numbered-option conventions
but the `" - "` regex matches, both label fields come from the split at
the last `" - "` — base label before it, question label after it — not
from the whole label. -/
theorem label_split_multi (s : List Char)
    (hb : ¬(s.head? = some '[' ∧ (lastMatch [']'] s).isSome))
    (hm : multiLast s = none)
    (hg : (lastMatch gridSep s).isSome) :
    ∃ i, lastMatch gridSep s = some i ∧
      labelSplit "multi_response" s = (s.take i, s.drop (i + 3)) := by
  rcases hgi : lastMatch gridSep s with _ | i
  · rw [hgi] at hg
    exact absurd hg (by simp)
  · refine ⟨i, rfl, ?_⟩
    unfold labelSplit
    rw [if_neg hb, if_neg (fun hc => by rw [hm] at hc; simp at hc),
      if_pos ⟨by decide, hg⟩, hgi]

/-- Witness for `label_split_multi` at the concrete label `"X - Y"`. -/
theorem label_split_multi_witness :
    (¬(("X - Y".data).head? = some '[' ∧ (lastMatch [']'] "X - Y".data).isSome)) ∧
    (multiLast "X - Y".data = none) ∧
    ((lastMatch gridSep "X - Y".data).isSome) ∧
    (∃ i, lastMatch gridSep "X - Y".data = some i ∧
      labelSplit "multi_response" "X - Y".data
        = ("X - Y".data.take i, "X - Y".data.drop (i + 3))) :=
  ⟨by decide, by decide, by decide,
    label_split_multi "X - Y".data (by decide) (by decide) (by decide)⟩

/-! ### Category-column synthesis (`Category.create_categories`,
LysioDB/category.py:9-123)

A dataframe is a row count plus named value columns.  The user's
`config.category_data` maps a label to a `[type, column-spec]` pair; the
builder prepends the built-in pair `"totalt": ["total", "1==1"]` via the
Python dict merge, so a user entry with key `"totalt"` *replaces* the
built-in one (keeping its position).  Python `eval` of a `single`
condition string is the oracle `evalC` (`none` = the eval raised);
`metadata.get_value_labels` is the oracle `vlabels`.  An unresolvable
column reference in the `column`/`unique`/`double` branches is an
*uncaught* `ColumnNotFoundError`, modelled as the whole build returning
`none`; a failing `single` eval is caught, reported and skipped.  The
result is the list of created category columns in the order the
expressions are accumulated (column/unique, then double, then total,
then single). -/

structure DFModel where
  n : ℕ
  cols : List (String × List (Option ℚ))

def dfLookup (df : DFModel) (name : String) : Option (List (Option ℚ)) :=
  (df.cols.find? (fun c => c.1 = name)).map Prod.snd

/-- `{**base, **config.category_data}` restricted to the category entries:
the built-in totalt entry is replaced by a user entry of the same key and
keeps the leading position. -/
def mergedSpecs (user : List (String × String × String)) :
    List (String × String × String) :=
  (match user.find? (fun u => u.1 = "totalt") with
   | some u => u
   | none => ("totalt", "total", "1==1")) :: user.filter (fun u => u.1 ≠ "totalt")

/-- Distinct non-null values of a source column (`unique().drop_nulls()`;
polars leaves the order unspecified, the claims only use membership). -/
def distinctVals (col : List (Option ℚ)) : List ℚ :=
  (col.filterMap id).dedup

/-- `pl.when(pl.col(src) == val).then(1).otherwise(None)`: a null cell
compares to null and falls through to the null branch. -/
def indicatorCol (col : List (Option ℚ)) (v : ℚ) : List (Option ℤ) :=
  col.map (fun c => if c = some v then some 1 else none)

/-- Polars `==` on two possibly-null cells inside a `when` condition:
null propagates and the `when` treats it as false. -/
def peq : Option ℚ → Option ℚ → Bool
  | some a, some b => decide (a = b)
  | _, _ => false

def optStr : Option ℚ → String
  | some q => toString q
  | none => "None"

/-- The `column`/`unique` loop (category.py:25-67). -/
def colUniqueExprs (df : DFModel) (vlabels : String → ℚ → Option String) :
    List (String × String × String) → Option (List (String × List (Option ℤ)))
  | [] => some []
  | (label, ctype, cspec) :: rest =>
      match colUniqueExprs df vlabels rest with
      | none => none
      | some tail =>
        if ctype = "column" then
          match dfLookup df cspec with
          | none => none
          | some col =>
              some ((distinctVals col).map (fun v =>
                ((vlabels cspec v).getD (toString v) ++ " " ++ label,
                  indicatorCol col v)) ++ tail)
        else if ctype = "unique" then
          match dfLookup df cspec with
          | none => none
          | some col =>
              some (((distinctVals col).insertionSort (· ≤ ·)).map (fun v =>
                (toString v, indicatorCol col v)) ++ tail)
        else some tail

/-- The `double` (two-column combination) loop (category.py:69-93);
a spec without `":"` raises an uncaught IndexError. -/
def doubleExprs (df : DFModel) :
    List (String × String × String) → Option (List (String × List (Option ℤ)))
  | [] => some []
  | (_label, ctype, cspec) :: rest =>
      match doubleExprs df rest with
      | none => none
      | some tail =>
        if ctype = "double" then
          match cspec.splitOn ":" with
          | c1 :: c2 :: _ =>
              match dfLookup df c1, dfLookup df c2 with
              | some col1, some col2 =>
                  some (((col1.zip col2).dedup.map (fun pv =>
                    (optStr pv.1 ++ ":" ++ optStr pv.2,
                      List.zipWith (fun a b =>
                        if peq a pv.1 ∧ peq b pv.2 then some (1 : ℤ) else none)
                        col1 col2))) ++ tail)
              | _, _ => none
          | _ => none
        else some tail

/-- The `total` loop (category.py:95-100): a constant-1 column per
total-typed label. -/
def totalExprs (n : ℕ) : List (String × String × String) → List (String × List (Option ℤ))
  | [] => []
  | (label, ctype, _) :: rest =>
      (if ctype = "total" then [(label, List.replicate n (some (1 : ℤ)))] else [])
        ++ totalExprs n rest

/-- The `single` loop (category.py:102-114): evaluate the condition
string; on success emit the 1/null indicator, on failure report and skip
the category. -/
def singleExprs (n : ℕ) (evalC : String → Option (ℕ → Bool)) :
    List (String × String × String) → List (String × List (Option ℤ))
  | [] => []
  | (label, ctype, cspec) :: rest =>
      (if ctype = "single" then
        match evalC cspec with
        | some p =>
            [(label, (List.range n).map (fun i => if p i then some (1 : ℤ) else none))]
        | none => []
       else []) ++ singleExprs n evalC rest

/-- `Category.create_categories`: the columns added to the dataframe, or
`none` when an uncaught error aborts the build. -/
def createCategories (df : DFModel) (user : List (String × String × String))
    (evalC : String → Option (ℕ → Bool)) (vlabels : String → ℚ → Option String) :
    Option (List (String × List (Option ℤ))) :=
  match colUniqueExprs df vlabels (mergedSpecs user) with
  | none => none
  | some cu =>
    match doubleExprs df (mergedSpecs user) with
    | none => none
    | some db =>
        some (cu ++ db ++ totalExprs df.n (mergedSpecs user)
          ++ singleExprs df.n evalC (mergedSpecs user))

theorem colUniqueExprs_eq_nil (df : DFModel) (vlabels : String → ℚ → Option String)
    (l : List (String × String × String))
    (h : ∀ e ∈ l, e.2.1 ≠ "column" ∧ e.2.1 ≠ "unique") :
    colUniqueExprs df vlabels l = some [] := by
  induction l with
  | nil => rfl
  | cons a t ih =>
    obtain ⟨label, ctype, cspec⟩ := a
    have ha := h _ (List.mem_cons_self _ t)
    have ht := ih (fun e he => h e (List.mem_cons_of_mem _ he))
    simp only [colUniqueExprs, ht]
    rw [if_neg (by simpa using ha.1), if_neg (by simpa using ha.2)]

theorem doubleExprs_eq_nil (df : DFModel) (l : List (String × String × String))
    (h : ∀ e ∈ l, e.2.1 ≠ "double") :
    doubleExprs df l = some [] := by
  induction l with
  | nil => rfl
  | cons a t ih =>
    obtain ⟨label, ctype, cspec⟩ := a
    have ha := h _ (List.mem_cons_self _ t)
    have ht := ih (fun e he => h e (List.mem_cons_of_mem _ he))
    simp only [doubleExprs, ht]
    rw [if_neg (by simpa using ha)]

theorem totalExprs_eq_nil (n : ℕ) (l : List (String × String × String))
    (h : ∀ e ∈ l, e.2.1 ≠ "total") :
    totalExprs n l = [] := by
  induction l with
  | nil => rfl
  | cons a t ih =>
    obtain ⟨label, ctype, cspec⟩ := a
    have ha := h _ (List.mem_cons_self _ t)
    have ht := ih (fun e he => h e (List.mem_cons_of_mem _ he))
    simp only [totalExprs, ht]
    rw [if_neg (by simpa using ha)]
    rfl

theorem singleExprs_mem (n : ℕ) (evalC : String → Option (ℕ → Bool))
    (l : List (String × String × String)) (u : String × String × String)
    (hu : u ∈ l) (ht : u.2.1 = "single") (p : ℕ → Bool) (hp : evalC u.2.2 = some p) :
    (u.1, (List.range n).map (fun i => if p i then some (1 : ℤ) else none))
      ∈ singleExprs n evalC l := by
  induction l with
  | nil => exact absurd hu (List.not_mem_nil u)
  | cons a t ih =>
    unfold singleExprs
    obtain ⟨label, ctype, cspec⟩ := a
    rcases List.mem_cons.mp hu with heq | hmem
    · subst heq
      simp only at ht hp
      rw [if_pos (by simpa using ht), hp]
      exact List.mem_append_left _ (List.mem_singleton.mpr rfl)
    · exact List.mem_append_right _ (ih hmem)

theorem singleExprs_names (n : ℕ) (evalC : String → Option (ℕ → Bool))
    (l : List (String × String × String)) (name : String)
    (h : name ∈ (singleExprs n evalC l).map Prod.fst) :
    ∃ e ∈ l, e.1 = name ∧ evalC e.2.2 ≠ none := by
  induction l with
  | nil => simp [singleExprs] at h
  | cons a t ih =>
    obtain ⟨label, ctype, cspec⟩ := a
    unfold singleExprs at h
    rw [List.map_append, List.mem_append] at h
    rcases h with h | h
    · by_cases hc : ctype = "single"
      · rw [if_pos (by simpa using hc)] at h
        rcases he : evalC cspec with _ | p
        · rw [he] at h
          simp at h
        · rw [he] at h
          simp only [List.map_cons, List.map_nil, List.mem_singleton] at h
          exact ⟨(label, ctype, cspec), List.mem_cons_self _ t, h.symm, by simp [he]⟩
      · rw [if_neg (by simpa using hc)] at h
        simp at h
    · obtain ⟨e, he, hn, hv⟩ := ih h
      exact ⟨e, List.mem_cons_of_mem _ he, hn, hv⟩

/-- C10 counterexample: a user specification that redefines the key
`"totalt"` as a `single` category shadows the built-in total entry
through the dict merge, so the build creates `"totalt"` as a 1/null
predicate column — here `[null, 1]` — not as a constant-1 total column. -/
theorem create_categories_totalt_cex :
    createCategories ⟨2, [("x", [some 0, some 1])]⟩ [("totalt", "single", "cond")]
        (fun s => if s = "cond" then some (fun i => i = 1) else none) (fun _ _ => none)
      = some [("totalt", [none, some 1])] ∧
    ([none, some (1 : ℤ)] ≠ List.replicate 2 (some (1 : ℤ))) := by
  constructor
  · rfl
  · decide

/-- C10 (amended): whenever the user-supplied category specification does
not itself use the key `"totalt"`, every successful
`Category.create_categories` build adds a constant total category column
named `"totalt"` holding 1 for every respondent; a user entry keyed
`"totalt"` replaces the built-in total spec via the dict merge. -/
theorem create_categories_totalt (df : DFModel) (user : List (String × String × String))
    (evalC : String → Option (ℕ → Bool)) (vlabels : String → ℚ → Option String)
    (h : ∀ u ∈ user, u.1 ≠ "totalt") :
    ∀ out, createCategories df user evalC vlabels = some out →
      ("totalt", List.replicate df.n (some (1 : ℤ))) ∈ out := by
  intro out hout
  have hfind : user.find? (fun u => u.1 = "totalt") = none := by
    rw [List.find?_eq_none]
    intro u hu
    simpa using h u hu
  have hfilter : user.filter (fun u => u.1 ≠ "totalt") = user :=
    List.filter_eq_self.mpr (fun u hu => by simpa using h u hu)
  have hm : mergedSpecs user = ("totalt", "total", "1==1") :: user := by
    unfold mergedSpecs
    rw [hfind, hfilter]
  unfold createCategories at hout
  rw [hm] at hout
  cases hcu : colUniqueExprs df vlabels (("totalt", "total", "1==1") :: user) with
  | none =>
    rw [hcu] at hout
    exact Option.noConfusion hout
  | some cu =>
    cases hdb : doubleExprs df (("totalt", "total", "1==1") :: user) with
    | none =>
      rw [hcu, hdb] at hout
      exact Option.noConfusion hout
    | some db =>
      rw [hcu, hdb] at hout
      have hout2 := Option.some.inj hout
      rw [← hout2]
      have htot : totalExprs df.n (("totalt", "total", "1==1") :: user)
          = ("totalt", List.replicate df.n (some (1 : ℤ)))
              :: totalExprs df.n user := by
        simp [totalExprs]
      rw [htot]
      simp

/-- Witness for `create_categories_totalt` with an empty user spec. -/
theorem create_categories_totalt_witness :
    createCategories ⟨2, []⟩ [] (fun _ => none) (fun _ _ => none)
        = some [("totalt", List.replicate 2 (some (1 : ℤ)))] ∧
    ("totalt", List.replicate 2 (some (1 : ℤ)))
        ∈ [("totalt", List.replicate 2 (some (1 : ℤ)))] :=
  ⟨rfl, create_categories_totalt ⟨2, []⟩ [] (fun _ => none) (fun _ _ => none)
    (by simp) _ rfl⟩

/-- C9: for a build whose user entries are all predicate (`single`)
categories with pairwise distinct labels none of which is `"totalt"`,
the build always completes (no exception escapes): a category whose
condition string fails to evaluate is skipped — its label names no
created column — while every sibling whose condition evaluates is
created with its 1/null indicator column. -/
theorem create_categories_skip (df : DFModel) (user : List (String × String × String))
    (evalC : String → Option (ℕ → Bool)) (vlabels : String → ℚ → Option String)
    (hall : ∀ u ∈ user, u.2.1 = "single")
    (hnames : ∀ u ∈ user, u.1 ≠ "totalt")
    (hnodup : (user.map Prod.fst).Nodup) :
    ∃ out, createCategories df user evalC vlabels = some out ∧
      (∀ u ∈ user, ∀ p, evalC u.2.2 = some p →
        (u.1, (List.range df.n).map (fun i => if p i then some (1 : ℤ) else none)) ∈ out) ∧
      (∀ u ∈ user, evalC u.2.2 = none → u.1 ∉ out.map Prod.fst) := by
  have hfind : user.find? (fun u => u.1 = "totalt") = none := by
    rw [List.find?_eq_none]
    intro u hu
    simpa using hnames u hu
  have hfilter : user.filter (fun u => u.1 ≠ "totalt") = user :=
    List.filter_eq_self.mpr (fun u hu => by simpa using hnames u hu)
  have hm : mergedSpecs user = ("totalt", "total", "1==1") :: user := by
    unfold mergedSpecs
    rw [hfind, hfilter]
  have hcu : colUniqueExprs df vlabels (mergedSpecs user) = some [] := by
    rw [hm]
    refine colUniqueExprs_eq_nil df vlabels _ (fun e he => ?_)
    rcases List.mem_cons.mp he with heq | hmem
    · subst heq
      exact ⟨by decide, by decide⟩
    · rw [hall e hmem]
      exact ⟨by decide, by decide⟩
  have hdb : doubleExprs df (mergedSpecs user) = some [] := by
    rw [hm]
    refine doubleExprs_eq_nil df _ (fun e he => ?_)
    rcases List.mem_cons.mp he with heq | hmem
    · subst heq
      decide
    · rw [hall e hmem]
      decide
  have htot : totalExprs df.n (mergedSpecs user)
      = [("totalt", List.replicate df.n (some (1 : ℤ)))] := by
    rw [hm]
    rw [show totalExprs df.n (("totalt", "total", "1==1") :: user)
        = ("totalt", List.replicate df.n (some (1 : ℤ))) :: totalExprs df.n user
      by simp [totalExprs]]
    rw [totalExprs_eq_nil df.n user (fun e he => by rw [hall e he]; decide)]
  have hsing : singleExprs df.n evalC (mergedSpecs user)
      = singleExprs df.n evalC user := by
    rw [hm]
    simp [singleExprs]
  refine ⟨[("totalt", List.replicate df.n (some (1 : ℤ)))]
      ++ singleExprs df.n evalC user, ?_, ?_, ?_⟩
  · unfold createCategories
    rw [hcu, hdb, htot, hsing]
    rfl
  · intro u hu p hp
    exact List.mem_append_right _
      (singleExprs_mem df.n evalC user u hu (hall u hu) p hp)
  · intro u hu hnone hmem
    rw [List.map_append, List.mem_append] at hmem
    rcases hmem with hmem | hmem
    · simp only [List.map_cons, List.map_nil, List.mem_singleton] at hmem
      exact hnames u hu hmem
    · obtain ⟨e, he, hname, hne⟩ := singleExprs_names df.n evalC user u.1 hmem
      have heu : e = u := List.inj_on_of_nodup_map hnodup he hu hname
      rw [heu] at hne
      exact hne hnone

/-- Witness for `create_categories_skip`: one well-formed and one
malformed predicate category. -/
theorem create_categories_skip_witness :
    (∀ u ∈ [("good", "single", "okc"), ("bad", "single", "badc")], u.2.1 = "single") ∧
    ∃ out, createCategories ⟨1, []⟩ [("good", "single", "okc"), ("bad", "single", "badc")]
        (fun s => if s = "okc" then some (fun _ : ℕ => true) else none) (fun _ _ => none)
        = some out ∧
      (∀ u ∈ [("good", "single", "okc"), ("bad", "single", "badc")],
        ∀ p, (fun s => if s = "okc" then some (fun _ : ℕ => true) else none) u.2.2 = some p →
        (u.1, (List.range 1).map (fun i => if p i then some (1 : ℤ) else none)) ∈ out) ∧
      (∀ u ∈ [("good", "single", "okc"), ("bad", "single", "badc")],
        (fun s => if s = "okc" then some (fun _ : ℕ => true) else none) u.2.2 = none →
          u.1 ∉ out.map Prod.fst) :=
  ⟨by decide, create_categories_skip ⟨1, []⟩ _ _ (fun _ _ => none)
    (by decide) (by decide) (by decide)⟩

/-! ### Correlation engine (`Calculations._correlate`,
calculations.py:1252-1488)

`CRow.vals` are one respondent's cells of the area-map questions,
indexed by position in the `questions` list; `areaIdx` are the positions
of the designated reference area's member questions.  The Pearson
coefficient itself is computed by polars `pl.corr`; it is embedded in its
standard sample form over the reals, `cov / (√varx · √vary)` (a zero
variance gives a 0/0 division, which is 0 in the real model just as the
NaN is clamped to 0 by the source's sign test).

Per category (calculations.py:1428-1456): pairs with either side null are
dropped; with fewer than 2 surviving pairs the question is *skipped* (no
row is appended); otherwise the value is emitted, clamped to 0 when the
`not corr_val >= 0` test fires (negative or NaN).

The "Overall" branch (calculations.py:1295-1378) aliases the row mean as
`f"{correlate_area}_avg"` but then selects `pl.col(correlate_area)`: when
no question is literally named like the area, every per-question attempt
raises inside the try and is skipped, so the branch emits nothing — and
the value it would emit is appended without any clamping. -/

structure CRow where
  cat : Bool
  vals : List (Option ℚ)

def meanQ (l : List ℚ) : ℚ := l.sum / l.length

/-- `mean_horizontal` over the reference area's member questions: the
mean of the non-null cells, null when all cells are null. -/
def avgRow (areaIdx : List ℕ) (r : CRow) : Option ℚ :=
  let xs := areaIdx.filterMap (fun i => r.vals.getD i none)
  if xs.isEmpty then none else some (meanQ xs)

/-- The `(question value, area average)` pairs of one category after the
row-wise `drop_nulls`. -/
def corrPairs (rows : List CRow) (areaIdx : List ℕ) (q : ℕ) : List (ℚ × ℚ) :=
  (rows.filter (·.cat)).filterMap (fun r =>
    match r.vals.getD q none, avgRow areaIdx r with
    | some v, some a => some (v, a)
    | _, _ => none)

def xAt (ps : List (ℚ × ℚ)) (i : ℕ) : ℚ := (ps.getD i (0, 0)).1

def yAt (ps : List (ℚ × ℚ)) (i : ℕ) : ℚ := (ps.getD i (0, 0)).2

/-- Centered cross-product sum of the paired sample. -/
def covQ (ps : List (ℚ × ℚ)) : ℚ :=
  ∑ i ∈ Finset.range ps.length,
    (xAt ps i - meanQ (ps.map Prod.fst)) * (yAt ps i - meanQ (ps.map Prod.snd))

def varX (ps : List (ℚ × ℚ)) : ℚ :=
  ∑ i ∈ Finset.range ps.length, (xAt ps i - meanQ (ps.map Prod.fst)) ^ 2

def varY (ps : List (ℚ × ℚ)) : ℚ :=
  ∑ i ∈ Finset.range ps.length, (yAt ps i - meanQ (ps.map Prod.snd)) ^ 2

/-- Sample Pearson coefficient as `pl.corr` computes it; the square roots
force the real-valued model. -/
noncomputable def pearson (ps : List (ℚ × ℚ)) : ℝ :=
  (covQ ps : ℝ) / (Real.sqrt (varX ps) * Real.sqrt (varY ps))

/-- One question's per-category emission: skipped below 2 valid pairs,
otherwise the Pearson value clamped by `if not corr_val >= 0: 0`. -/
noncomputable def corrValue (rows : List CRow) (areaIdx : List ℕ) (q : ℕ) : Option ℝ :=
  let ps := corrPairs rows areaIdx q
  if 1 < ps.length then
    some (if 0 ≤ pearson ps then pearson ps else 0)
  else none

/-- All `Correlation` values emitted for one category column. -/
noncomputable def categoryCorrelations (rows : List CRow) (areaIdx : List ℕ)
    (numQ : ℕ) : List ℝ :=
  (List.range numQ).filterMap (corrValue rows areaIdx)

/-- The "Overall" branch used when no category columns exist: it selects
the column named like the area itself — not the `_avg` alias it just
created — so it only ever correlates against an identically named
question column, and when there is none every question is skipped by the
exception handler; emitted values are not clamped. -/
noncomputable def overallCorrelations (rows : List CRow) (questions : List String)
    (area : String) : List ℝ :=
  if questions.length < 2 then []
  else
    match questions.findIdx? (fun qn => qn = area) with
    | none => []
    | some ai =>
        (List.range questions.length).filterMap (fun q =>
          let ps := (rows.map (fun r =>
            (r.vals.getD ai none, r.vals.getD q none))).filterMap (fun p =>
              match p.1, p.2 with
              | some a, some v => some (v, a)
              | _, _ => none)
          if 1 < ps.length then some (pearson ps) else none)

theorem varX_nonneg (ps : List (ℚ × ℚ)) : 0 ≤ varX ps :=
  Finset.sum_nonneg (fun _ _ => sq_nonneg _)

theorem varY_nonneg (ps : List (ℚ × ℚ)) : 0 ≤ varY ps :=
  Finset.sum_nonneg (fun _ _ => sq_nonneg _)

theorem covQ_sq_le (ps : List (ℚ × ℚ)) : covQ ps ^ 2 ≤ varX ps * varY ps :=
  Finset.sum_mul_sq_le_sq_mul_sq (Finset.range ps.length)
    (fun i => xAt ps i - meanQ (ps.map Prod.fst))
    (fun i => yAt ps i - meanQ (ps.map Prod.snd))

theorem pearson_le_one (ps : List (ℚ × ℚ)) : pearson ps ≤ 1 := by
  unfold pearson
  have hd : (0 : ℝ) ≤ Real.sqrt (varX ps) * Real.sqrt (varY ps) :=
    mul_nonneg (Real.sqrt_nonneg _) (Real.sqrt_nonneg _)
  rcases eq_or_lt_of_le hd with h0 | hpos
  · rw [← h0, div_zero]
    norm_num
  · rw [div_le_one hpos]
    calc ((covQ ps : ℝ)) ≤ |(covQ ps : ℝ)| := le_abs_self _
    _ = Real.sqrt ((covQ ps : ℝ) ^ 2) := (Real.sqrt_sq_eq_abs _).symm
    _ ≤ Real.sqrt ((varX ps : ℝ) * (varY ps : ℝ)) := by
        apply Real.sqrt_le_sqrt
        exact_mod_cast covQ_sq_le ps
    _ = Real.sqrt (varX ps) * Real.sqrt (varY ps) := by
        apply Real.sqrt_mul
        exact_mod_cast varX_nonneg ps

theorem findIdx?_eq_none_of_not_mem (qs : List String) (area : String)
    (h : area ∉ qs) : qs.findIdx? (fun qn => qn = area) = none := by
  suffices hgen : ∀ i, List.findIdx? (fun qn => decide (qn = area)) qs i = none from hgen 0
  induction qs with
  | nil => intro i; rfl
  | cons a t ih =>
    intro i
    rw [List.findIdx?_cons]
    rw [if_neg (by
      simp only [decide_eq_true_eq]
      exact fun heq => h (heq ▸ List.mem_cons_self a t))]
    exact ih (fun hm => h (List.mem_cons_of_mem a hm)) (i + 1)

/-- C4 counterexample: (a) one valid pair only: the per-category
computation emits *nothing* for the question — the non-computable case is
skipped, not mapped to 0; (b) the "Overall" computation emits nothing at
all when no question is named like the area (its column lookup fails
inside the per-question try), even on data whose Pearson correlation is
negative — so no clamping to 0 happens there either. -/
theorem correlation_clamp_cex :
    (corrPairs [⟨true, [some 5]⟩, ⟨true, [none]⟩] [0] 0).length = 1 ∧
    categoryCorrelations [⟨true, [some 5]⟩, ⟨true, [none]⟩] [0] 1 = [] ∧
    overallCorrelations [⟨true, [some 0, some 1]⟩, ⟨true, [some 1, some 0]⟩]
      ["Q1", "Q2"] "A" = [] ∧
    pearson [(0, 1), (1, 0)] < 0 := by
  refine ⟨rfl, rfl, rfl, ?_⟩
  have hcov : covQ [(0, 1), (1, 0)] = -1/2 := by
    norm_num [covQ, xAt, yAt, meanQ, Finset.sum_range_succ]
  have hvx : varX [(0, 1), (1, 0)] = 1/2 := by
    norm_num [varX, xAt, meanQ, Finset.sum_range_succ]
  have hvy : varY [(0, 1), (1, 0)] = 1/2 := by
    norm_num [varY, yAt, meanQ, Finset.sum_range_succ]
  unfold pearson
  rw [hcov, hvx, hvy]
  apply div_neg_of_neg_of_pos
  · norm_num
  · have : (0 : ℝ) < Real.sqrt ((1 : ℚ)/2 : ℚ) := by
      apply Real.sqrt_pos.mpr
      norm_num
    exact mul_pos this this

/-- C4 (amended): every `Correlation` value emitted by the per-category
computation lies in `[0, 1]` — negative (or NaN) Pearson results are
clamped to 0 and the sample coefficient never exceeds 1 — but a question
with fewer than 2 valid pairs is skipped with no emitted value, and the
"Overall" computation emits no values at all when no question is named
like the reference area (and applies no clamping when one is). -/
theorem correlation_range (rows : List CRow) (areaIdx : List ℕ) (numQ : ℕ)
    (rows2 : List CRow) (qs : List String) (area : String) (v : ℝ)
    (hv : v ∈ categoryCorrelations rows areaIdx numQ)
    (harea : area ∉ qs) :
    (0 ≤ v ∧ v ≤ 1) ∧ overallCorrelations rows2 qs area = [] := by
  constructor
  · unfold categoryCorrelations at hv
    obtain ⟨q, _, hq⟩ := List.mem_filterMap.mp hv
    unfold corrValue at hq
    by_cases hl : 1 < (corrPairs rows areaIdx q).length
    · rw [if_pos hl] at hq
      have hv2 := Option.some.inj hq
      rw [← hv2]
      by_cases hs : 0 ≤ pearson (corrPairs rows areaIdx q)
      · rw [if_pos hs]
        exact ⟨hs, pearson_le_one _⟩
      · rw [if_neg hs]
        norm_num
    · rw [if_neg hl] at hq
      exact Option.noConfusion hq
  · unfold overallCorrelations
    by_cases hlen : qs.length < 2
    · rw [if_pos hlen]
    · rw [if_neg hlen, findIdx?_eq_none_of_not_mem qs area harea]

/-- Witness for `correlation_range`: two constant-valued respondents give
one emitted value, the degenerate 0/0 coefficient clamped through as 0. -/
theorem correlation_range_witness :
    ((0 : ℝ) ∈ categoryCorrelations [⟨true, [some 1]⟩, ⟨true, [some 1]⟩] [0] 1 ∧
      "A" ∉ (["Q1", "Q2"] : List String)) ∧
    ((0 ≤ (0 : ℝ) ∧ (0 : ℝ) ≤ 1) ∧
      overallCorrelations [] ["Q1", "Q2"] "A" = []) := by
  have hcov : covQ (corrPairs [⟨true, [some 1]⟩, ⟨true, [some 1]⟩] [0] 0) = 0 := by
    norm_num [corrPairs, avgRow, covQ, xAt, yAt, meanQ, Finset.sum_range_succ,
      List.filterMap_cons]
  have hp : pearson (corrPairs [⟨true, [some 1]⟩, ⟨true, [some 1]⟩] [0] 0) = 0 := by
    unfold pearson
    rw [hcov]
    norm_num
  have hmem : (0 : ℝ) ∈ categoryCorrelations [⟨true, [some 1]⟩, ⟨true, [some 1]⟩] [0] 1 := by
    unfold categoryCorrelations corrValue
    have hl : 1 < (corrPairs [⟨true, [some 1]⟩, ⟨true, [some 1]⟩] [0] 0).length := by
      norm_num [corrPairs, avgRow, List.filterMap_cons]
    simp only [List.range_succ, List.range_zero, List.nil_append,
      List.filterMap_cons, List.filterMap_nil]
    rw [if_pos hl, hp]
    simp
  exact ⟨⟨hmem, by decide⟩,
    correlation_range [⟨true, [some 1]⟩, ⟨true, [some 1]⟩] [0] 1 [] ["Q1", "Q2"] "A" 0
      hmem (by decide)⟩

/-! ### Concrete datasets and claims for the percentage tabulation.

`pctNans` is the default `Config.NAN_VALUES` key set `{999}`; the
category column is a total category covering all rows; all weights are 1
unless stated. -/

def pctNans : List ℚ := [999]

/-- Four respondents, `Q1 = [1, 1, 2, null]`, all in the total category. -/
def dfScenario : List PRow :=
  [⟨some 1, true, 1⟩, ⟨some 1, true, 1⟩, ⟨some 2, true, 1⟩, ⟨none, true, 1⟩]

/-- Same scenario but the fourth respondent carries the missing code 999. -/
def dfScenarioCoded : List PRow :=
  [⟨some 1, true, 1⟩, ⟨some 1, true, 1⟩, ⟨some 2, true, 1⟩, ⟨some 999, true, 1⟩]

/-- Three respondents `[1, 2, 999]` in the total category. -/
def dfThird : List PRow :=
  [⟨some 1, true, 1⟩, ⟨some 2, true, 1⟩, ⟨some 999, true, 1⟩]

/-- One respondent holding only the missing code, weighted. -/
def dfAllMissing : List PRow := [⟨some 999, true, 1⟩]

/-- C1 counterexample: with one missing-coded respondent out of three, the
sum of the value percentages is 1 while the `nan_percentage` is 1/3, so the
combined sum is 4/3, off from 1.0 by far more than the 1e-6 tolerance, even
though the valid denominator is positive. -/
theorem percentage_sum_with_nan_cex :
    0 < totalCount dfThird pctNans ∧
    percentageU dfThird pctNans 1 = FV.num (1/2) ∧
    percentageU dfThird pctNans 2 = FV.num (1/2) ∧
    nanPercentageU dfThird pctNans = FV.num (1/3) ∧
    ¬ |(1/2 + 1/2 + 1/3 : ℚ) - 1| ≤ 1/1000000 := by
  refine ⟨by decide, ?_, ?_, ?_, ?_⟩
  · simp +decide [percentageU, qdiv, fillNaN0, countVal, totalCount,
      memberRows, dfThird, pctNans]
  · simp +decide [percentageU, qdiv, fillNaN0, countVal, totalCount,
      memberRows, dfThird, pctNans]
  · simp +decide [nanPercentageU, qdiv, fillNaN0, countVal, totalCount,
      nanCount, memberRows, dfThird, pctNans]
    norm_num [fillNaN0]
  · rw [show |(1/2 + 1/2 + 1/3 : ℚ) - 1| = 1/3 by
      rw [show (1/2 + 1/2 + 1/3 : ℚ) - 1 = 1/3 by norm_num]
      exact abs_of_pos (by norm_num)]
    norm_num

/-- C1 (amended): whenever the valid denominator is positive and every
non-missing value of the column is covered by the possible answer values,
the value percentages alone sum to exactly 1; the `nan_percentage` row uses
the different denominator `total_count + nan_count`, so the combined sum
exceeds 1 exactly when `nan_count > 0`. -/
theorem percentage_sum_invariant (df : List PRow) (nans : List ℚ) (pvs : Finset ℚ)
    (h1 : 0 < totalCount df nans)
    (hn : ∀ v ∈ pvs, v ∉ nans)
    (hcov : ∀ r ∈ memberRows df,
      r.val.all (fun u => decide (u ∈ nans) || decide (u ∈ pvs)) = true) :
    (∀ v ∈ pvs, percentageU df nans v = FV.num (countVal df v / totalCount df nans)) ∧
    (∑ v ∈ pvs, (countVal df v : ℚ) / totalCount df nans) = 1 ∧
    nanPercentageU df nans
      = FV.num (nanCount df nans / (totalCount df nans + nanCount df nans)) := by
  have htne : ((totalCount df nans : ℚ)) ≠ 0 := by
    exact_mod_cast Nat.pos_iff_ne_zero.mp h1
  refine ⟨?_, ?_, ?_⟩
  · intro v _
    unfold percentageU qdiv
    rw [if_pos htne]
    rfl
  · rw [← Finset.sum_div]
    rw [show (∑ v ∈ pvs, (countVal df v : ℚ)) = ((∑ v ∈ pvs, countVal df v : ℕ) : ℚ) by
      push_cast
      rfl]
    rw [sum_countVal_eq_totalCount df nans pvs hn hcov]
    exact div_self htne
  · have hdne : ((totalCount df nans : ℚ) + (nanCount df nans : ℚ)) ≠ 0 := by
      have hpos : 0 < totalCount df nans + nanCount df nans :=
        Nat.lt_of_lt_of_le h1 (Nat.le_add_right _ _)
      rw [show ((totalCount df nans : ℚ) + (nanCount df nans : ℚ))
          = ((totalCount df nans + nanCount df nans : ℕ) : ℚ) by push_cast; rfl]
      exact_mod_cast Nat.pos_iff_ne_zero.mp hpos
    unfold nanPercentageU qdiv
    rw [if_pos hdne]
    rfl

/-- Witness for `percentage_sum_invariant` at a concrete two-respondent input. -/
theorem percentage_sum_invariant_witness :
    (0 < totalCount [⟨some 1, true, 1⟩, ⟨some 2, true, 1⟩] pctNans) ∧
    ((∀ v ∈ ({1, 2} : Finset ℚ), percentageU [⟨some 1, true, 1⟩, ⟨some 2, true, 1⟩] pctNans v
        = FV.num (countVal [⟨some 1, true, 1⟩, ⟨some 2, true, 1⟩] v
            / totalCount [⟨some 1, true, 1⟩, ⟨some 2, true, 1⟩] pctNans)) ∧
    (∑ v ∈ ({1, 2} : Finset ℚ), (countVal [⟨some 1, true, 1⟩, ⟨some 2, true, 1⟩] v : ℚ)
        / totalCount [⟨some 1, true, 1⟩, ⟨some 2, true, 1⟩] pctNans) = 1 ∧
    nanPercentageU [⟨some 1, true, 1⟩, ⟨some 2, true, 1⟩] pctNans
      = FV.num (nanCount [⟨some 1, true, 1⟩, ⟨some 2, true, 1⟩] pctNans
          / (totalCount [⟨some 1, true, 1⟩, ⟨some 2, true, 1⟩] pctNans
              + nanCount [⟨some 1, true, 1⟩, ⟨some 2, true, 1⟩] pctNans))) :=
  ⟨by decide, percentage_sum_invariant _ _ _ (by decide) (by decide) (by decide)⟩

/-- C2 counterexample: on `Q1 = [1, 1, 2, null]` with a total category the
code produces 2/3 — not 0.5 — as the percentage of answer value 1. -/
theorem percentage_scenario_cex :
    percentageU dfScenario pctNans 1 = FV.num (2/3) ∧ FV.num (2/3) ≠ FV.num (1/2) := by
  constructor
  · simp +decide [percentageU, qdiv, fillNaN0, countVal, totalCount, memberRows,
      dfScenario, pctNans]
  · simp only [ne_eq, FV.num.injEq]
    norm_num

/-- C2 (amended): on `Q1 = [1, 1, 2, null]` the unweighted engine yields
percentage 2/3 for value 1, 1/3 for value 2 and `nan_percentage` 0 (a null
cell is not a missing code, so `nan_count = 0`); if the fourth respondent
instead carries the missing code 999 the percentages stay 2/3 and 1/3 and
`nan_percentage` becomes 1/4 = 1/(3+1). -/
theorem percentage_scenario :
    percentageU dfScenario pctNans 1 = FV.num (2/3) ∧
    percentageU dfScenario pctNans 2 = FV.num (1/3) ∧
    nanPercentageU dfScenario pctNans = FV.num 0 ∧
    percentageU dfScenarioCoded pctNans 1 = FV.num (2/3) ∧
    percentageU dfScenarioCoded pctNans 2 = FV.num (1/3) ∧
    nanPercentageU dfScenarioCoded pctNans = FV.num (1/4) := by
  refine ⟨?_, ?_, ?_, ?_, ?_, ?_⟩
  all_goals
    simp +decide [percentageU, nanPercentageU, qdiv, fillNaN0, countVal, totalCount,
      nanCount, memberRows, dfScenario, dfScenarioCoded, pctNans]
  all_goals norm_num [fillNaN0]

/-- C8 counterexample: when the valid denominator is 0 the *weighted*
percentage is the unfilled IEEE result `0.0 / 0.0 = NaN` — the weighted
branch of the source has no `fill_nan(0)` — so it is a non-finite value,
not 0. -/
theorem percentage_division_cex :
    totalCount dfAllMissing pctNans = 0 ∧
    percentageW dfAllMissing pctNans 1 = FV.nan ∧
    FV.nan ≠ FV.num 0 := by
  refine ⟨by decide, ?_, by simp⟩
  simp +decide [percentageW, qdiv, weightedSumVal, totalCount, memberRows,
    dfAllMissing, pctNans]

/-- C8 (amended): for an answer value outside the missing codes, the
unweighted percentage is `count/total_count` and is 0 when the valid
denominator is 0 (the `0/0` NaN is filled); the weighted percentage is
`weighted_sum/total_count` when the denominator is positive but is the
non-finite NaN when the denominator is 0.  No division fault is raised in
either case. -/
theorem percentage_division_total (df : List PRow) (nans : List ℚ) (v : ℚ)
    (hv : v ∉ nans) :
    percentageU df nans v
      = FV.num (if totalCount df nans = 0 then 0
          else countVal df v / totalCount df nans) ∧
    percentageW df nans v
      = (if totalCount df nans = 0 then FV.nan
          else FV.num (weightedSumVal df v / totalCount df nans)) := by
  by_cases h0 : totalCount df nans = 0
  · have hc : countVal df v = 0 := countVal_eq_zero_of_total_zero df nans v hv h0
    have hw : weightedSumVal df v = 0 := weightedSumVal_eq_zero_of_total_zero df nans v hv h0
    constructor
    · unfold percentageU qdiv
      rw [hc, h0]
      simp [fillNaN0]
    · unfold percentageW qdiv
      rw [hw, h0]
      simp
  · have htne : ((totalCount df nans : ℚ)) ≠ 0 := by exact_mod_cast h0
    constructor
    · unfold percentageU qdiv
      rw [if_pos htne, if_neg h0]
      rfl
    · unfold percentageW qdiv
      rw [if_pos htne, if_neg h0]

/-- Witness for `percentage_division_total` at concrete inputs. -/
theorem percentage_division_total_witness :
    ((1 : ℚ) ∉ pctNans) ∧
    (percentageU dfScenario pctNans 1
      = FV.num (if totalCount dfScenario pctNans = 0 then 0
          else countVal dfScenario 1 / totalCount dfScenario pctNans) ∧
    percentageW dfScenario pctNans 1
      = (if totalCount dfScenario pctNans = 0 then FV.nan
          else FV.num (weightedSumVal dfScenario 1 / totalCount dfScenario pctNans))) :=
  ⟨by decide, percentage_division_total dfScenario pctNans 1 (by decide)⟩
